import Mathlib

/-!
Verification development for the india-pak-news text-analytics pipeline
(src/backend/app.py).  The Python functions are shallowly embedded as
executable Lean definitions: strings are lists of characters, Python dicts
for articles become records with optional fields (a missing key raises,
modelled by `Except`), Python floats are modelled as exact rationals in a
kernel-computable representation `Q`, and `re.findall` is modelled by
left-to-right non-overlapping scanners specialised to the concrete regex
families of the source.
-/

namespace IndiaPakNews

/-! ## Python float model

Python floats are modelled as exact rationals.  `Q` stores an integer
numerator and a natural denominator without normalisation, so every
operation is kernel-computable (no gcd).  A value with denominator 0 never
arises from the pipeline itself; comparisons read such junk as 0 so that
the comparison relations stay total preorders.
-/

structure Q where
  num : Int
  den : Nat
deriving Repr, DecidableEq

def Q.qnum (a : Q) : Int := if a.den = 0 then 0 else a.num

def Q.qden (a : Q) : Int := if a.den = 0 then 1 else (a.den : Int)

/-- Numeric less-or-equal on `Q` by cross multiplication. -/
def Q.le (a b : Q) : Bool := decide (a.qnum * b.qden ≤ b.qnum * a.qden)

/-- Numeric equality on `Q` by cross multiplication. -/
def Q.eqv (a b : Q) : Bool := decide (a.qnum * b.qden = b.qnum * a.qden)

/-- Numeric strict less-than on `Q`. -/
def Q.lt (a b : Q) : Bool := decide (a.qnum * b.qden < b.qnum * a.qden)

def Q.add (a b : Q) : Q := ⟨a.num * (b.den : Int) + b.num * (a.den : Int), a.den * b.den⟩

def Q.mul (a b : Q) : Q := ⟨a.num * b.num, a.den * b.den⟩

def Q.ofNat (n : Nat) : Q := ⟨(n : Int), 1⟩

/-- The rational n / d (used for literals such as 0.4 = `Q.mk' 4 10`). -/
def Q.mk' (n : Int) (d : Nat) : Q := ⟨n, d⟩

/-- Python `min(a, b)`: returns the first argument on ties. -/
def Q.min (a b : Q) : Q := if a.le b then a else b

theorem Q.qden_pos (a : Q) : 0 < a.qden := by
  unfold Q.qden; split
  · exact Int.zero_lt_one
  · exact_mod_cast Nat.pos_of_ne_zero (by assumption)

theorem Q.le_total (a b : Q) : a.le b = true ∨ b.le a = true := by
  unfold Q.le
  rcases Int.le_total (a.qnum * b.qden) (b.qnum * a.qden) with h | h
  · exact Or.inl (by simpa using h)
  · exact Or.inr (by simpa using h)

theorem Q.le_trans {a b c : Q} (h1 : a.le b = true) (h2 : b.le c = true) :
    a.le c = true := by
  unfold Q.le at h1 h2 ⊢
  have hb := Q.qden_pos b
  have ha := Q.qden_pos a
  have hc := Q.qden_pos c
  have h1' : a.qnum * b.qden ≤ b.qnum * a.qden := by simpa using h1
  have h2' : b.qnum * c.qden ≤ c.qnum * b.qden := by simpa using h2
  have goal : a.qnum * c.qden ≤ c.qnum * a.qden := by nlinarith
  simpa using goal

/-! ## String utilities (Python semantics, on `List Char`) -/

/-- Python whitespace for `\s`, `str.strip`, `str.split()` (ASCII part). -/
def pyIsSpace (c : Char) : Bool :=
  c = ' ' || c = '\t' || c = '\n' || c = '\r' || c = '\x0b' || c = '\x0c'

/-- Python `str.lower()` (ASCII case mapping). -/
def lowerL (s : List Char) : List Char := s.map Char.toLower

/-- Python `str.strip()`. -/
def pyStrip (s : List Char) : List Char :=
  ((s.dropWhile pyIsSpace).reverse.dropWhile pyIsSpace).reverse

/-- `pat` is a leading substring of `s` (Python `str.startswith`). -/
def startsWithL : List Char → List Char → Bool
  | [], _ => true
  | _ :: _, [] => false
  | p :: ps, c :: cs => p = c && startsWithL ps cs

/-- Python `needle in hay` substring containment. -/
def containsSub (needle : List Char) : List Char → Bool
  | [] => needle.isEmpty
  | c :: cs => startsWithL needle (c :: cs) || containsSub needle cs

def countSubAux (needle : List Char) : Nat → List Char → Nat
  | _, [] => 0
  | 0, _ => 0
  | Nat.succ f, c :: cs =>
    if startsWithL needle (c :: cs) then
      1 + countSubAux needle f (List.drop (needle.length - 1) cs)
    else countSubAux needle f cs

/-- Python `hay.count(needle)`: non-overlapping occurrence count. -/
def countSub (needle hay : List Char) : Nat :=
  if needle.isEmpty then hay.length + 1 else countSubAux needle hay.length hay

/-- Python `str.replace` (non-overlapping, left to right), nonempty needle. -/
def replaceSubAux (needle repl : List Char) : Nat → List Char → List Char
  | _, [] => []
  | 0, s => s
  | Nat.succ f, c :: cs =>
    if startsWithL needle (c :: cs) then
      repl ++ replaceSubAux needle repl f (List.drop (needle.length - 1) cs)
    else c :: replaceSubAux needle repl f cs

def replaceSub (needle repl s : List Char) : List Char :=
  if needle.isEmpty then s else replaceSubAux needle repl s.length s

def isTermPunct (c : Char) : Bool := c = '.' || c = '!' || c = '?'

mutual
/-- `re.split` on `[.!?]+`: piece accumulation state. -/
def splitPunctAux (cur : List Char) : List Char → List (List Char)
  | [] => [cur.reverse]
  | c :: cs =>
    if isTermPunct c then cur.reverse :: splitPunctRun cs else splitPunctAux (c :: cur) cs

/-- `re.split` on `[.!?]+`: inside a delimiter run. -/
def splitPunctRun : List Char → List (List Char)
  | [] => [[]]
  | c :: cs => if isTermPunct c then splitPunctRun cs else splitPunctAux [c] cs
end

/-- Python `re.split(r'[.!?]+', s)`. -/
def splitPunct (s : List Char) : List (List Char) := splitPunctAux [] s

def wordCountAux : Bool → List Char → Nat
  | _, [] => 0
  | inWord, c :: cs =>
    if pyIsSpace c then wordCountAux false cs
    else (if inWord then 0 else 1) + wordCountAux true cs

/-- `len(s.split())`: number of maximal non-whitespace runs. -/
def wordCount (s : List Char) : Nat := wordCountAux false s

def pyTitleAux : Bool → List Char → List Char
  | _, [] => []
  | prevAlpha, c :: cs =>
    let c2 := if c.isAlpha then (if prevAlpha then c.toLower else c.toUpper) else c
    c2 :: pyTitleAux c.isAlpha cs

/-- Python `str.title()` (ASCII). -/
def pyTitle (s : List Char) : List Char := pyTitleAux false s

/-- Python `str.isdigit()` (ASCII digits). -/
def pyIsDigitStr (s : List Char) : Bool := !s.isEmpty && s.all Char.isDigit

def digitVal (c : Char) : Nat := c.toNat - 48

/-- Decimal value of a digit string (`int(match)` on a `\d+` capture). -/
def natOfDigits (ds : List Char) : Nat := ds.foldl (fun a c => a * 10 + digitVal c) 0

/-- `" ".join`-style join with separator. -/
def joinSep (sep : List Char) : List (List Char) → List Char
  | [] => []
  | [x] => x
  | x :: y :: ys => x ++ sep ++ joinSep sep (y :: ys)

/-! ## Regex scanners

`re.findall` is modelled per pattern family: a step function tries to match
at the head of the remaining text; the driver scans left to right,
continuing after the end of every match (non-overlapping), exactly like
`re.findall`.  Backtracking across alternations is realised by trying the
alternatives in source order, each with the pattern continuation.
-/

/-- Match a literal, returning the rest of the text. -/
def litM (pat s : List Char) : Option (List Char) :=
  if startsWithL pat s then some (s.drop pat.length) else none

/-- `\s+`: one or more whitespace characters (greedy, maximal). -/
def ws1 : List Char → Option (List Char)
  | [] => none
  | c :: cs => if pyIsSpace c then some (cs.dropWhile pyIsSpace) else none

/-- `\d+` (greedy): maximal nonempty digit run and the rest. -/
def takeDigits (s : List Char) : Option (List Char × List Char) :=
  let ds := s.takeWhile Char.isDigit
  if ds.isEmpty then none else some (ds, s.dropWhile Char.isDigit)

/-- Alternation `(?:a1|a2|...)` followed by continuation `k`; tries the
alternatives in order and backtracks into `k`, passing `k` the matched
alternative and the rest of the text. -/
def altCapThen (k : List Char → List Char → Option α) :
    List (List Char) → List Char → Option α
  | [], _ => none
  | a :: as, s =>
    match litM a s with
    | some r =>
      match k a r with
      | some v => some v
      | none => altCapThen k as s
    | none => altCapThen k as s

/-- Alternation whose continuation ignores the matched alternative. -/
def altThen (k : List Char → Option α) (alts : List (List Char))
    (s : List Char) : Option α :=
  altCapThen (fun _ r => k r) alts s

/-- `(?:people\s+|children\s+)?(?:kw1|kw2|...)`: the optional noun group of
the casualty patterns, followed by the keyword alternation; returns the
text after the keyword. -/
def nounOptKw (kws : List (List Char)) (s : List Char) : Option (List Char) :=
  let unit : List Char → Option (List Char) := fun w =>
    match litM w s with
    | none => none
    | some r =>
      match ws1 r with
      | none => none
      | some r2 => altThen some kws r2
  match unit "people".data with
  | some r => some r
  | none =>
    match unit "children".data with
    | some r => some r
    | none => altThen some kws s

/-- `(\d+)\s+(?:people\s+|children\s+)?(?:kws)` — casualty pattern 1. -/
def matchNumKw (kws : List (List Char)) (s : List Char) : Option (Nat × List Char) :=
  match takeDigits s with
  | none => none
  | some (ds, r1) =>
    match ws1 r1 with
    | none => none
    | some r2 =>
      match nounOptKw kws r2 with
      | none => none
      | some r3 => some (natOfDigits ds, r3)

/-- `(?:kws)\s+(\d+)` — casualty pattern 2. -/
def matchKwNum (kws : List (List Char)) (s : List Char) : Option (Nat × List Char) :=
  altThen
    (fun r =>
      match ws1 r with
      | none => none
      | some r2 =>
        match takeDigits r2 with
        | none => none
        | some (ds, r3) => some (natOfDigits ds, r3))
    kws s

/-- `(?:death toll of|toll of|death count of)\s+(\d+)|(\d+)\s+deaths` —
death pattern 3 (the branch that matched supplies the captured number). -/
def matchTollOrDeaths (s : List Char) : Option (Nat × List Char) :=
  match
    altThen
      (fun r =>
        match ws1 r with
        | none => none
        | some r2 =>
          match takeDigits r2 with
          | none => none
          | some (ds, r3) => some (natOfDigits ds, r3))
      ["death toll of".data, "toll of".data, "death count of".data] s
  with
  | some v => some v
  | none =>
    match takeDigits s with
    | none => none
    | some (ds, r1) =>
      match ws1 r1 with
      | none => none
      | some r2 =>
        match litM "deaths".data r2 with
        | none => none
        | some r3 => some (natOfDigits ds, r3)

/-- `at least\s+(\d+)\s+(?:kws)` — casualty pattern 4. -/
def matchAtLeastNum (kws : List (List Char)) (s : List Char) :
    Option (Nat × List Char) :=
  match litM "at least".data s with
  | none => none
  | some r =>
    match ws1 r with
    | none => none
    | some r1 =>
      match takeDigits r1 with
      | none => none
      | some (ds, r2) =>
        match ws1 r2 with
        | none => none
        | some r3 =>
          match altThen some kws r3 with
          | none => none
          | some r4 => some (natOfDigits ds, r4)

/-- The spelled-out number-word alternation of patterns 5/6, in source
order. -/
def numberWords : List String :=
  ["zero", "one", "two", "three", "four", "five", "six", "seven", "eight",
   "nine", "ten", "eleven", "twelve", "thirteen", "fourteen", "fifteen",
   "sixteen", "seventeen", "eighteen", "nineteen", "twenty"]

/-- `(word)\s+(?:people\s+|children\s+)?(?:kws)` — word pattern 5,
capturing the matched number word. -/
def matchWordKw (kws : List (List Char)) (s : List Char) :
    Option (List Char × List Char) :=
  altCapThen
    (fun w r =>
      match ws1 r with
      | none => none
      | some r2 =>
        match nounOptKw kws r2 with
        | none => none
        | some r3 => some (w, r3))
    (numberWords.map String.data) s

/-- `at least\s+(word)\s+(?:kws)` — word pattern 6. -/
def matchAtLeastWord (kws : List (List Char)) (s : List Char) :
    Option (List Char × List Char) :=
  match litM "at least".data s with
  | none => none
  | some r =>
    match ws1 r with
    | none => none
    | some r1 =>
      altCapThen
        (fun w r2 =>
          match ws1 r2 with
          | none => none
          | some r3 =>
            match altThen some kws r3 with
            | none => none
            | some r4 => some (w, r4))
        (numberWords.map String.data) r1

/-- `(\d+(?:\.\d+)?)\s*(?:billion|million)` — economic figure pattern; the
captured decimal string is parsed like Python `float`. -/
def matchEconomic (s : List Char) : Option (Q × List Char) :=
  match takeDigits s with
  | none => none
  | some (ds, r1) =>
    let fracRes : Option (List Char × List Char) :=
      match r1 with
      | '.' :: r2 =>
        match takeDigits r2 with
        | some (fs, r3) => some (fs, r3)
        | none => none
      | _ => none
    let (value, r4) : Q × List Char :=
      match fracRes with
      | some (fs, r3) =>
        (⟨(natOfDigits ds * 10 ^ fs.length + natOfDigits fs : Int), 10 ^ fs.length⟩, r3)
      | none => (⟨(natOfDigits ds : Int), 1⟩, r1)
    let r5 := r4.dropWhile pyIsSpace
    match altThen some ["billion".data, "million".data] r5 with
    | none => none
    | some r6 => some (value, r6)

/-- `re.findall` driver: scan left to right, restarting after each match
(non-overlapping); every step function below consumes at least one
character when it succeeds, so fuel `s.length` is never exhausted. -/
def scanAllAux (step : List Char → Option (α × List Char)) :
    Nat → List Char → List α
  | 0, _ => []
  | Nat.succ f, s =>
    match s with
    | [] => []
    | _ :: cs =>
      match step s with
      | some (a, rest) => a :: scanAllAux step f rest
      | none => scanAllAux step f cs

def scanAll (step : List Char → Option (α × List Char)) (s : List Char) : List α :=
  scanAllAux step s.length s

/-! ## Article records

A Python article dict: `title` and `text` may be missing (malformed
record).  `d['k']` on a missing key raises `KeyError`, modelled by
`Except.error ()`; `d.get('k', '')` yields the default.
-/

structure RawArticle where
  title? : Option String
  text? : Option String
deriving Repr, DecidableEq

def RawArticle.getTitle (a : RawArticle) : String := a.title?.getD ""

def RawArticle.getText (a : RawArticle) : String := a.text?.getD ""

/-! ## extract_conflict_statistics (src/backend/app.py:637-821) -/

def death_keywords : List String :=
  ["killed", "dead", "deaths", "died", "fatalities", "casualties"]

def injury_keywords : List String := ["injured", "wounded", "hurt", "casualties"]

def military_keywords : List String :=
  ["missile", "drone", "attack", "strike", "firing", "shelling", "aircraft",
   "military operation", "bomb", "blast", "explosion"]

def diplomatic_keywords : List String :=
  ["meeting", "talks", "summit", "minister", "ambassador", "diplomatic",
   "negotiation", "dialogue"]

def border_keywords : List String :=
  ["border", "loc", "line of control", "ceasefire", "violation",
   "infiltration", "cross-border"]

/-- The word-to-number lookup of `convert_word_to_number`. -/
def convert_word_to_number (word : List Char) : Option Nat :=
  (List.zip (numberWords.map String.data) (List.range 21)).lookup (lowerL word)

/-- `combined_text = f"{title} {text}"` over the lowercased fields, with
missing fields defaulted to `''` (the source uses `.get(..., '')`). -/
def combinedStatsText (a : RawArticle) : List Char :=
  lowerL a.getTitle.data ++ ' ' :: lowerL a.getText.data

def deathKwL : List (List Char) := death_keywords.map String.data

def injuryKwL : List (List Char) := injury_keywords.map String.data

/-- Sum of a word-match list: `convert_word_to_number`, unmapped words
ignored (`if num is not None`). -/
def sumWordMatches (ws : List (List Char)) : Nat :=
  ws.foldl (fun acc w => match convert_word_to_number w with
    | some n => acc + n
    | none => acc) 0

/-- Per-article death count: digit patterns 1-4 plus word patterns 5-6. -/
def articleDeaths (ct : List Char) : Nat :=
  let m1 := scanAll (matchNumKw deathKwL) ct
  let m2 := scanAll (matchKwNum deathKwL) ct
  let m3 := scanAll matchTollOrDeaths ct
  let m4 := scanAll (matchAtLeastNum deathKwL) ct
  let m5 := scanAll (matchWordKw deathKwL) ct
  let m6 := scanAll (matchAtLeastWord deathKwL) ct
  (m1 ++ m2 ++ m4 ++ m3).foldl (· + ·) 0 + sumWordMatches (m5 ++ m6)

/-- Per-article injury count: digit patterns 1-3 plus word pattern 4. -/
def articleInjuries (ct : List Char) : Nat :=
  let m1 := scanAll (matchNumKw injuryKwL) ct
  let m2 := scanAll (matchKwNum injuryKwL) ct
  let m3 := scanAll (matchAtLeastNum injuryKwL) ct
  let m4 := scanAll (matchWordKw injuryKwL) ct
  (m1 ++ m2 ++ m3).foldl (· + ·) 0 + sumWordMatches m4

/-- Category counting: the keyword loop increments at most once per
article (first hit breaks). -/
def countCategory (kws : List String) (ct : List Char) : Nat :=
  if kws.any (fun k => containsSub k.data ct) then 1 else 0

structure StatsAcc where
  total_casualties : Int
  deaths : Int
  injuries : Int
  military_incidents : Int
  diplomatic_meetings : Int
  border_violations : Int
  economic_impact : List Q
  key_developments : Int
deriving Repr, DecidableEq

def initStats : StatsAcc :=
  { total_casualties := 0, deaths := 0, injuries := 0, military_incidents := 0,
    diplomatic_meetings := 0, border_violations := 0, economic_impact := [],
    key_developments := 0 }

/-- One iteration of the article loop of `extract_conflict_statistics`. -/
def statsStep (acc : StatsAcc) (a : RawArticle) : StatsAcc :=
  let ct := combinedStatsText a
  let d := articleDeaths ct
  let i := articleInjuries ct
  { total_casualties := acc.total_casualties + ((d : Int) + (i : Int)),
    deaths := acc.deaths + (d : Int),
    injuries := acc.injuries + (i : Int),
    military_incidents := acc.military_incidents + (countCategory military_keywords ct : Int),
    diplomatic_meetings := acc.diplomatic_meetings + (countCategory diplomatic_keywords ct : Int),
    border_violations := acc.border_violations + (countCategory border_keywords ct : Int),
    economic_impact := acc.economic_impact ++ scanAll matchEconomic ct,
    key_developments := acc.key_developments + 1 }

/-- Python `round(x, 1)` (round-half-to-even), on the exact rational model. -/
def pyRound1 (x : Q) : Q :=
  let y : Q := x.mul ⟨10, 1⟩
  let n := y.qnum
  let d := y.qden
  let f := Int.fdiv n d
  let r2 := 2 * (n - f * d)
  let i : Int :=
    if r2 < d then f
    else if r2 > d then f + 1
    else if f % 2 = 0 then f else f + 1
  ⟨i, 10⟩

structure ConflictStats extends StatsAcc where
  recent_period : String
  avg_casualties_per_incident : Q
  diplomatic_activity_level : String
  conflict_intensity : String
deriving Repr, DecidableEq

/-- `extract_conflict_statistics(articles)`: accumulate the per-article
counters, then attach the derived fields.  Total on malformed records
(missing fields default to the empty string). -/
def extract_conflict_statistics (articles : List RawArticle) : ConflictStats :=
  let s := articles.foldl statsStep initStats
  { s with
    recent_period := "7 days",
    avg_casualties_per_incident :=
      pyRound1 ⟨s.total_casualties, (max s.military_incidents 1).toNat⟩,
    diplomatic_activity_level :=
      if s.diplomatic_meetings ≥ 3 then "High"
      else if s.diplomatic_meetings ≥ 1 then "Moderate" else "Low",
    conflict_intensity :=
      if s.military_incidents ≥ 4 then "High"
      else if s.military_incidents ≥ 2 then "Moderate" else "Low" }

/-- The accumulator invariant of the statistics loop: the casualty total is
maintained per article (`stats['total_casualties'] += deaths + injuries`),
and every counter only ever grows by casts of natural numbers. -/
def StatsInv (s : StatsAcc) : Prop :=
  s.total_casualties = s.deaths + s.injuries ∧ 0 ≤ s.deaths ∧ 0 ≤ s.injuries ∧
    0 ≤ s.total_casualties ∧ 0 ≤ s.military_incidents ∧
    0 ≤ s.diplomatic_meetings ∧ 0 ≤ s.border_violations ∧ 0 ≤ s.key_developments

theorem statsStep_inv (acc : StatsAcc) (a : RawArticle) (h : StatsInv acc) :
    StatsInv (statsStep acc a) := by
  obtain ⟨h1, h2, h3, h4, h5, h6, h7, h8⟩ := h
  unfold StatsInv statsStep
  dsimp only
  refine ⟨by omega, by omega, by omega, by omega, by omega, by omega, by omega, by omega⟩

theorem foldl_stats_inv (arts : List RawArticle) (acc : StatsAcc)
    (h : StatsInv acc) : StatsInv (arts.foldl statsStep acc) := by
  induction arts generalizing acc with
  | nil => exact h
  | cons a as ih => exact ih _ (statsStep_inv acc a h)

/-- Claim C1: for every list of articles, the report returned by
`extract_conflict_statistics` satisfies
`total_casualties = deaths + injuries` exactly, and every counter
(`deaths`, `injuries`, `total_casualties`, `military_incidents`,
`diplomatic_meetings`, `border_violations`, `key_developments`) is a
non-negative integer. -/
theorem claim_C1_stats_invariant (articles : List RawArticle) :
    (extract_conflict_statistics articles).total_casualties =
        (extract_conflict_statistics articles).deaths +
          (extract_conflict_statistics articles).injuries ∧
      0 ≤ (extract_conflict_statistics articles).deaths ∧
      0 ≤ (extract_conflict_statistics articles).injuries ∧
      0 ≤ (extract_conflict_statistics articles).total_casualties ∧
      0 ≤ (extract_conflict_statistics articles).military_incidents ∧
      0 ≤ (extract_conflict_statistics articles).diplomatic_meetings ∧
      0 ≤ (extract_conflict_statistics articles).border_violations ∧
      0 ≤ (extract_conflict_statistics articles).key_developments := by
  have h := foldl_stats_inv articles initStats
    ⟨rfl, le_refl 0, le_refl 0, le_refl 0, le_refl 0, le_refl 0, le_refl 0, le_refl 0⟩
  obtain ⟨h1, h2, h3, h4, h5, h6, h7, h8⟩ := h
  unfold extract_conflict_statistics
  dsimp only
  exact ⟨h1, h2, h3, h4, h5, h6, h7, h8⟩

/-- Claim C8: `extract_conflict_statistics []` returns a report with all
counters zero, an empty economic-impact list, `key_developments = 0`,
`diplomatic_activity_level = "Low"` and `conflict_intensity = "Low"`. -/
theorem claim_C8_stats_empty :
    (extract_conflict_statistics []).total_casualties = 0 ∧
      (extract_conflict_statistics []).deaths = 0 ∧
      (extract_conflict_statistics []).injuries = 0 ∧
      (extract_conflict_statistics []).military_incidents = 0 ∧
      (extract_conflict_statistics []).diplomatic_meetings = 0 ∧
      (extract_conflict_statistics []).border_violations = 0 ∧
      (extract_conflict_statistics []).economic_impact = [] ∧
      (extract_conflict_statistics []).key_developments = 0 ∧
      (extract_conflict_statistics []).diplomatic_activity_level = "Low" ∧
      (extract_conflict_statistics []).conflict_intensity = "Low" := by
  decide

/-- Claim C3 counterexample: the claim asserts that every casualty regex
family of both classes is run in a digit and in a spelled-out form, in
particular that an article containing "injured six" contributes the same
injury count as one containing "injured 6".  In the code the
`<keyword> <N>` family for injuries has no word form, so "injured six"
contributes 0 while "injured 6" contributes 6. -/
theorem claim_C3_counterexample :
    (extract_conflict_statistics [⟨some "", some "injured six"⟩]).injuries = 0 ∧
      (extract_conflict_statistics [⟨some "", some "injured 6"⟩]).injuries = 6 ∧
      (0 : Int) ≠ 6 := by
  decide

/-- Claim C3 amended: only the `<N> <keyword>` family is run in both a
digit and a spelled-out form for both classes (plus
`at least <N> <keyword>` for deaths only); for that family the word and
digit forms agree — for every spelled-out number word from zero to twenty,
an article containing "<word> killed" contributes exactly the word value
to `deaths`, the same as an article containing the digit form.  The
`<keyword> <N>` and death-toll families, and the injury `at least` family,
are run only against digit sequences, so "injured six" contributes 0 to
injuries while "injured 6" contributes 6. -/
theorem claim_C3_amended :
    ((List.zip numberWords (List.range 21)).all (fun p =>
        articleDeaths (' ' :: p.1.data ++ " killed".data) = p.2 &&
        articleDeaths (' ' :: (Nat.repr p.2).data ++ " killed".data) = p.2) = true) ∧
      (extract_conflict_statistics [⟨some "", some "six killed"⟩]).deaths = 6 ∧
      (extract_conflict_statistics [⟨some "", some "6 killed"⟩]).deaths = 6 ∧
      (extract_conflict_statistics [⟨some "", some "at least six killed"⟩]).deaths = 12 ∧
      (extract_conflict_statistics [⟨some "", some "at least 6 killed"⟩]).deaths = 12 ∧
      (extract_conflict_statistics [⟨some "", some "injured six"⟩]).injuries = 0 ∧
      (extract_conflict_statistics [⟨some "", some "injured 6"⟩]).injuries = 6 := by
  decide

/-! ## Stable sort

Python `list.sort(..., reverse=True)` and `heapq.nlargest` are stable
descending sorts.  `sortRev ge` is a stable insertion sort: a new element
is placed before the first element it strictly dominates, hence after all
elements equivalent to it — the same order Python produces. -/

def insertD (ge : α → α → Bool) (x : α) : List α → List α
  | [] => [x]
  | y :: ys => if ge x y && !ge y x then x :: y :: ys else y :: insertD ge x ys

def sortRev (ge : α → α → Bool) (l : List α) : List α :=
  l.foldl (fun acc x => insertD ge x acc) []

theorem mem_insertD (ge : α → α → Bool) (x : α) (l : List α) (z : α)
    (h : z ∈ insertD ge x l) : z = x ∨ z ∈ l := by
  induction l with
  | nil => simpa [insertD] using h
  | cons y ys ih =>
    unfold insertD at h
    split at h
    · simpa using h
    · rcases List.mem_cons.1 h with h | h
      · exact Or.inr (h ▸ List.mem_cons_self y ys)
      · rcases ih h with h | h
        · exact Or.inl h
        · exact Or.inr (List.mem_cons_of_mem y h)

theorem insertD_pairwise {ge : α → α → Bool}
    (htrans : ∀ a b c, ge a b = true → ge b c = true → ge a c = true)
    (htotal : ∀ a b, ge a b = true ∨ ge b a = true)
    (x : α) (l : List α) (h : l.Pairwise (fun a b => ge a b = true)) :
    (insertD ge x l).Pairwise (fun a b => ge a b = true) := by
  induction l with
  | nil => simp [insertD]
  | cons y ys ih =>
    obtain ⟨hy, hys⟩ := List.pairwise_cons.1 h
    unfold insertD
    split
    · rename_i hcond
      have hxy : ge x y = true := by
        have := hcond
        simp only [Bool.and_eq_true, Bool.not_eq_true'] at this
        exact this.1
      refine List.pairwise_cons.2 ⟨?_, h⟩
      intro z hz
      rcases List.mem_cons.1 hz with rfl | hz
      · exact hxy
      · exact htrans x y z hxy (hy z hz)
    · rename_i hcond
      have hyx : ge y x = true := by
        simp only [Bool.and_eq_true, Bool.not_eq_true'] at hcond
        rcases htotal x y with hxy | hyx
        · rcases Bool.eq_false_or_eq_true (ge y x) with ht | hf
          · exact ht
          · exact absurd ⟨hxy, hf⟩ hcond
        · exact hyx
      refine List.pairwise_cons.2 ⟨?_, ih hys⟩
      intro z hz
      rcases mem_insertD ge x ys z hz with rfl | hz
      · exact hyx
      · exact hy z hz

theorem insertD_perm (ge : α → α → Bool) (x : α) (l : List α) :
    (insertD ge x l).Perm (x :: l) := by
  induction l with
  | nil => simp [insertD]
  | cons y ys ih =>
    unfold insertD
    split
    · exact List.Perm.refl _
    · exact ((ih.cons y).trans (List.Perm.swap x y ys))

theorem sortRev_perm_aux (ge : α → α → Bool) (l acc : List α) :
    (l.foldl (fun acc x => insertD ge x acc) acc).Perm (acc ++ l) := by
  induction l generalizing acc with
  | nil => simp
  | cons x xs ih =>
    have h1 := ih (insertD ge x acc)
    have h2 : (insertD ge x acc ++ xs).Perm (acc ++ x :: xs) := by
      have := (insertD_perm ge x acc).append_right xs
      exact this.trans (List.perm_middle.symm)
    simpa using h1.trans h2

theorem sortRev_perm (ge : α → α → Bool) (l : List α) :
    (sortRev ge l).Perm l := by
  simpa [sortRev] using sortRev_perm_aux ge l []

theorem sortRev_pairwise {ge : α → α → Bool}
    (htrans : ∀ a b c, ge a b = true → ge b c = true → ge a c = true)
    (htotal : ∀ a b, ge a b = true ∨ ge b a = true) (l : List α) :
    (sortRev ge l).Pairwise (fun a b => ge a b = true) := by
  have gen : ∀ (l acc : List α), acc.Pairwise (fun a b => ge a b = true) →
      (l.foldl (fun acc x => insertD ge x acc) acc).Pairwise
        (fun a b => ge a b = true) := by
    intro l
    induction l with
    | nil => intro acc h; exact h
    | cons x xs ih =>
      intro acc h
      exact ih _ (insertD_pairwise htrans htotal x acc h)
  exact gen l [] List.Pairwise.nil

/-! ## extract_trending_keywords (src/backend/app.py:823-944) -/

def lowerS (s : String) : String := ⟨lowerL s.data⟩

def custom_stop_words : List String :=
  ["said", "says", "according", "report", "reports", "news", "article", "also",
   "would", "could", "should",
   "one", "two", "three", "new", "first", "last", "many", "several", "some",
   "other", "more", "most",
   "year", "years", "day", "days", "time", "week", "weeks", "month", "months",
   "today", "yesterday",
   "people", "government", "country", "countries", "state", "states", "region",
   "area", "world",
   "including", "following", "during", "after", "before", "between", "among",
   "across", "within"]

def important_keywords : List (String × Q) :=
  [("pakistan", ⟨30, 10⟩), ("india", ⟨30, 10⟩), ("kashmir", ⟨25, 10⟩),
   ("conflict", ⟨20, 10⟩), ("ceasefire", ⟨25, 10⟩),
   ("military", ⟨20, 10⟩), ("border", ⟨20, 10⟩), ("attack", ⟨20, 10⟩),
   ("peace", ⟨25, 10⟩), ("tension", ⟨20, 10⟩),
   ("diplomatic", ⟨20, 10⟩), ("china", ⟨18, 10⟩), ("afghanistan", ⟨18, 10⟩),
   ("taliban", ⟨18, 10⟩), ("nuclear", ⟨22, 10⟩),
   ("missile", ⟨20, 10⟩), ("drone", ⟨18, 10⟩), ("terrorism", ⟨20, 10⟩),
   ("security", ⟨18, 10⟩), ("violence", ⟨20, 10⟩),
   ("negotiations", ⟨25, 10⟩), ("talks", ⟨20, 10⟩), ("minister", ⟨15, 10⟩),
   ("army", ⟨18, 10⟩), ("forces", ⟨18, 10⟩),
   ("loc", ⟨20, 10⟩), ("balochistan", ⟨18, 10⟩), ("punjab", ⟨15, 10⟩),
   ("karachi", ⟨15, 10⟩), ("islamabad", ⟨15, 10⟩),
   ("delhi", ⟨15, 10⟩), ("mumbai", ⟨15, 10⟩), ("soldiers", ⟨18, 10⟩),
   ("civilians", ⟨20, 10⟩), ("casualties", ⟨22, 10⟩),
   ("killed", ⟨20, 10⟩), ("injured", ⟨18, 10⟩), ("blast", ⟨20, 10⟩),
   ("bomb", ⟨20, 10⟩), ("shelling", ⟨20, 10⟩)]

structure KeywordEntry where
  text : String
  weight : Q
  frequency : Nat
deriving Repr, DecidableEq

def fallback_keywords : List KeywordEntry :=
  [⟨"Pakistan", ⟨100, 1⟩, 10⟩, ⟨"India", ⟨95, 1⟩, 9⟩, ⟨"Kashmir", ⟨80, 1⟩, 6⟩,
   ⟨"Conflict", ⟨70, 1⟩, 5⟩, ⟨"Military", ⟨60, 1⟩, 4⟩, ⟨"Border", ⟨55, 1⟩, 4⟩,
   ⟨"Diplomatic", ⟨50, 1⟩, 3⟩, ⟨"Security", ⟨45, 1⟩, 3⟩, ⟨"Taliban", ⟨42, 1⟩, 3⟩,
   ⟨"China", ⟨40, 1⟩, 2⟩, ⟨"Afghanistan", ⟨38, 1⟩, 2⟩, ⟨"Nuclear", ⟨35, 1⟩, 2⟩]

/-- The `TfidfVectorizer` of scikit-learn is an external collaborator (not
part of this repository); it is abstracted as an oracle producing feature
names with their TF-IDF scores.  `none` models the vectorizer raising,
which the source catches, returning the fallback list. -/
def TfidfOracle : Type := List Char → Option (List (String × Q))

/-- The combined-text loop of `extract_trending_keywords`
(`all_text += f" {article['title']} {article['text']}"`): direct key
access, so a record missing either field raises. -/
def keywordsAllText (articles : List RawArticle) : Except Unit (List Char) :=
  articles.foldlM (fun acc a =>
    match a.title?, a.text? with
    | some t, some x => Except.ok (acc ++ ' ' :: t.data ++ ' ' :: x.data)
    | _, _ => Except.error ()) []

/-- The per-feature filter/boost/blend loop of `extract_trending_keywords`. -/
def keywordScoresOf (all_text : List Char) (features : List (String × Q)) :
    List KeywordEntry :=
  features.filterMap (fun f =>
    let keyword := f.1
    if custom_stop_words.contains (lowerS keyword) then none
    else if keyword.length < 3 then none
    else if pyIsDigitStr keyword.data then none
    else
      let score :=
        match important_keywords.lookup (lowerS keyword) with
        | some factor => f.2.mul factor
        | none => f.2
      let frequency := countSub (lowerL keyword.data) (lowerL all_text)
      let combined := score.mul ⟨(10 + frequency : Int), 10⟩
      some { text := ⟨pyTitle keyword.data⟩,
             weight := Q.min (combined.mul ⟨100, 1⟩) ⟨100, 1⟩,
             frequency := frequency })

/-- Descending-by-weight comparison used by
`keyword_scores.sort(key=lambda x: x['weight'], reverse=True)`. -/
def kwGe (a b : KeywordEntry) : Bool := Q.le b.weight a.weight

/-- `extract_trending_keywords(articles, max_keywords)`: fallback when the
combined text is too short, when the vectorizer raises, or when every
feature is filtered out; otherwise the boosted entries sorted descending
by weight, capped at `max_keywords`. -/
def extract_trending_keywords (oracle : TfidfOracle) (articles : List RawArticle)
    (max_keywords : Nat) : Except Unit (List KeywordEntry) :=
  match keywordsAllText articles with
  | Except.error e => Except.error e
  | Except.ok all_text =>
    Except.ok (
      if (pyStrip all_text).length < 100 then fallback_keywords
      else
        match oracle all_text with
        | none => fallback_keywords
        | some features =>
          let trending := (sortRev kwGe (keywordScoresOf all_text features)).take
            max_keywords
          if trending.isEmpty then fallback_keywords else trending)

theorem kwGe_trans (a b c : KeywordEntry) (h1 : kwGe a b = true)
    (h2 : kwGe b c = true) : kwGe a c = true :=
  Q.le_trans h2 h1

theorem kwGe_total (a b : KeywordEntry) : kwGe a b = true ∨ kwGe b a = true :=
  (Q.le_total b.weight a.weight).elim Or.inl Or.inr

/-- A concrete oracle: the vectorizer raised (the `except` path of the
source); also what any degenerate corpus produces. -/
def noTfidf : TfidfOracle := fun _ => none

/-- Claim C4 counterexample: the claim says the result always has at most
`max_keywords` entries, but `extract_trending_keywords` on empty input
with `max_keywords = 5` returns the 12-entry fallback list. -/
theorem claim_C4_counterexample :
    extract_trending_keywords noTfidf [] 5 = Except.ok fallback_keywords ∧
      fallback_keywords.length = 12 ∧ ¬ fallback_keywords.length ≤ 5 :=
  ⟨rfl, by decide, by decide⟩

/-- Claim C4 amended: every keyword list returned by
`extract_trending_keywords` is ordered descending by weight, and it has at
most `max_keywords` entries unless it is the fixed 12-entry fallback list
(returned whole regardless of `max_keywords`). -/
theorem claim_C4_amended (oracle : TfidfOracle) (articles : List RawArticle)
    (max_keywords : Nat) (l : List KeywordEntry)
    (h : extract_trending_keywords oracle articles max_keywords = Except.ok l) :
    l.Pairwise (fun a b => Q.le b.weight a.weight = true) ∧
      (l.length ≤ max_keywords ∨ l = fallback_keywords) := by
  unfold extract_trending_keywords at h
  have hfall : fallback_keywords.Pairwise
      (fun a b => Q.le b.weight a.weight = true) := by decide
  cases hat : keywordsAllText articles with
  | error e => rw [hat] at h; exact absurd h (by simp)
  | ok all_text =>
    rw [hat] at h
    have hl := Except.ok.inj h
    by_cases hshort : (pyStrip all_text).length < 100
    · rw [if_pos hshort] at hl
      exact ⟨hl ▸ hfall, Or.inr hl.symm⟩
    · rw [if_neg hshort] at hl
      cases hor : oracle all_text with
      | none => rw [hor] at hl; exact ⟨hl ▸ hfall, Or.inr hl.symm⟩
      | some features =>
        rw [hor] at hl
        dsimp only at hl
        by_cases hempty :
            ((sortRev kwGe (keywordScoresOf all_text features)).take
              max_keywords).isEmpty
        · rw [if_pos hempty] at hl
          exact ⟨hl ▸ hfall, Or.inr hl.symm⟩
        · rw [if_neg hempty] at hl
          have hsorted : (sortRev kwGe (keywordScoresOf all_text features)).Pairwise
              (fun a b => kwGe a b = true) :=
            sortRev_pairwise (fun a b c => kwGe_trans a b c) kwGe_total _
          have htake : ((sortRev kwGe (keywordScoresOf all_text features)).take
              max_keywords).Pairwise (fun a b => kwGe a b = true) :=
            List.Pairwise.sublist (List.take_sublist _ _) hsorted
          refine ⟨?_, Or.inl ?_⟩
          · rw [hl] at htake
            exact htake.imp (fun h => h)
          · rw [← hl, List.length_take]
            exact Nat.min_le_left _ _

/-- Claim C4 amended witness: the amended claim evaluated on the empty
article list with `max_keywords = 5`. -/
theorem claim_C4_amended_witness :
    extract_trending_keywords noTfidf [] 5 = Except.ok fallback_keywords ∧
      (fallback_keywords.Pairwise (fun a b => Q.le b.weight a.weight = true) ∧
        (fallback_keywords.length ≤ 5 ∨ fallback_keywords = fallback_keywords)) :=
  ⟨rfl, claim_C4_amended noTfidf [] 5 fallback_keywords rfl⟩

/-- Claim C9: on the empty article list (combined text `""`), and more
generally whenever the combined text built by the function strips to fewer
than 100 characters, `extract_trending_keywords` returns exactly the fixed
12-entry fallback keyword list with weights
[100, 95, 80, 70, 60, 55, 50, 45, 42, 40, 38, 35] in that order. -/
theorem claim_C9_keywords_fallback (oracle : TfidfOracle)
    (articles : List RawArticle) (max_keywords : Nat) (t : List Char)
    (h1 : keywordsAllText articles = Except.ok t)
    (h2 : (pyStrip t).length < 100) :
    extract_trending_keywords oracle articles max_keywords =
        Except.ok fallback_keywords ∧
      fallback_keywords.length = 12 ∧
      fallback_keywords.map KeywordEntry.weight =
        [⟨100, 1⟩, ⟨95, 1⟩, ⟨80, 1⟩, ⟨70, 1⟩, ⟨60, 1⟩, ⟨55, 1⟩, ⟨50, 1⟩,
         ⟨45, 1⟩, ⟨42, 1⟩, ⟨40, 1⟩, ⟨38, 1⟩, ⟨35, 1⟩] := by
  refine ⟨?_, rfl, rfl⟩
  unfold extract_trending_keywords
  rw [h1]
  dsimp only
  rw [if_pos h2]

/-- Claim C9 witness: the empty article list yields combined text `""` and
the fallback list. -/
theorem claim_C9_keywords_fallback_witness :
    keywordsAllText [] = Except.ok [] ∧ (pyStrip []).length < 100 ∧
      extract_trending_keywords noTfidf [] 20 = Except.ok fallback_keywords :=
  ⟨rfl, by decide,
    (claim_C9_keywords_fallback noTfidf [] 20 [] rfl (by decide)).1⟩

/-! ## extract_geographic_hotspots (src/backend/app.py:946-1049) -/

structure LocEntry where
  key : String
  lat : Q
  lng : Q
  name : String
  ltype : String
deriving Repr, DecidableEq

/-- The `known_locations` gazetteer, in dict insertion order. -/
def known_locations : List LocEntry :=
  [⟨"kashmir", ⟨340837, 10000⟩, ⟨747973, 10000⟩, "Kashmir", "disputed_region"⟩,
   ⟨"loc", ⟨340466, 10000⟩, ⟨743982, 10000⟩, "Line of Control", "border"⟩,
   ⟨"karachi", ⟨248607, 10000⟩, ⟨670011, 10000⟩, "Karachi", "city"⟩,
   ⟨"islamabad", ⟨336844, 10000⟩, ⟨730479, 10000⟩, "Islamabad", "capital"⟩,
   ⟨"lahore", ⟨315497, 10000⟩, ⟨743436, 10000⟩, "Lahore", "city"⟩,
   ⟨"delhi", ⟨286139, 10000⟩, ⟨772090, 10000⟩, "New Delhi", "capital"⟩,
   ⟨"mumbai", ⟨190760, 10000⟩, ⟨728777, 10000⟩, "Mumbai", "city"⟩,
   ⟨"balochistan", ⟨281100, 10000⟩, ⟨655400, 10000⟩, "Balochistan", "province"⟩,
   ⟨"punjab", ⟨309010, 10000⟩, ⟨731200, 10000⟩, "Punjab", "province"⟩,
   ⟨"siachen", ⟨354218, 10000⟩, ⟨771025, 10000⟩, "Siachen Glacier", "disputed_region"⟩]

structure Hotspot where
  name : String
  lat : Q
  lng : Q
  ltype : String
  intensity : String
  incidents : Int
  description : String
deriving Repr, DecidableEq

def default_hotspots : List Hotspot :=
  [⟨"Kashmir", ⟨340837, 10000⟩, ⟨747973, 10000⟩, "disputed_region", "high", 3,
    "Ongoing tensions in disputed Kashmir region"⟩,
   ⟨"Line of Control", ⟨340466, 10000⟩, ⟨743982, 10000⟩, "border", "medium", 2,
    "Border incidents along LOC"⟩,
   ⟨"Balochistan", ⟨281100, 10000⟩, ⟨655400, 10000⟩, "province", "low", 1,
    "Regional security concerns"⟩]

def conflict_keywords : List String :=
  ["attack", "killed", "bomb", "blast", "shelling", "firing", "violence",
   "incident", "shot", "wounded", "explosion", "strike"]

/-- The conflict-keyword loop: one increment per keyword present in the
article text. -/
def incidentCountOf (text : List Char) : Nat :=
  conflict_keywords.foldl (fun n k => if containsSub k.data text then n + 1 else n) 0

def intensityOf (n : Nat) : String :=
  if n ≥ 3 then "high" else if n ≥ 1 then "medium" else "low"

/-- In-place update of the first list element satisfying `p` (the
`next(...)` lookup followed by mutation in the source). -/
def updateFirst (p : α → Bool) (f : α → α) : List α → List α
  | [] => []
  | h :: hs => if p h then f h :: hs else h :: updateFirst p f hs

/-- Merging a new observation into an existing hotspot: the intensity is
upgraded only if higher on the low<medium<high ordering, and the incident
count accumulates. -/
def mergeHotspot (inten : String) (n : Nat) (h : Hotspot) : Hotspot :=
  let h2 := if inten = "high" ∨ (inten = "medium" ∧ h.intensity = "low")
    then { h with intensity := inten } else h
  { h2 with incidents := h2.incidents + (n : Int) }

/-- The body of the per-location branch of `extract_geographic_hotspots`:
merge into an existing same-name hotspot or append a new one. -/
def processLoc (text : List Char) (hs : List Hotspot) (loc : LocEntry) :
    List Hotspot :=
  if containsSub loc.key.data text then
    let n := incidentCountOf text
    let inten := intensityOf n
    if hs.any (fun h => h.name = loc.name) then
      updateFirst (fun h => h.name = loc.name) (mergeHotspot inten n) hs
    else
      hs ++ [{ name := loc.name, lat := loc.lat, lng := loc.lng,
               ltype := loc.ltype, intensity := inten, incidents := (n : Int),
               description := "Recent activity detected in " ++ loc.name }]
  else hs

/-- One article of the hotspot loop: `f"{article['title']} {article['text']}"`
is direct key access, so a malformed record raises. -/
def hotspotArticleStep (hs : List Hotspot) (a : RawArticle) :
    Except Unit (List Hotspot) :=
  match a.title?, a.text? with
  | some t, some x =>
    Except.ok (known_locations.foldl (processLoc (lowerL (t.data ++ ' ' :: x.data))) hs)
  | _, _ => Except.error ()

/-- `extract_geographic_hotspots(articles)`: accumulate hotspots over the
articles, then substitute the defaults if none was found, or append the
missing defaults otherwise. -/
def extract_geographic_hotspots (articles : List RawArticle) :
    Except Unit (List Hotspot) :=
  match articles.foldlM hotspotArticleStep [] with
  | Except.error e => Except.error e
  | Except.ok hs =>
    Except.ok (
      if hs.length = 0 then default_hotspots
      else
        hs ++ default_hotspots.filter
          (fun d => !((hs.map Hotspot.name).contains d.name)))

theorem mergeHotspot_name (inten : String) (n : Nat) (h : Hotspot) :
    (mergeHotspot inten n h).name = h.name := by
  unfold mergeHotspot
  dsimp only
  split <;> rfl

theorem updateFirst_names (p : Hotspot → Bool) (f : Hotspot → Hotspot)
    (hf : ∀ h, (f h).name = h.name) (hs : List Hotspot) :
    (updateFirst p f hs).map Hotspot.name = hs.map Hotspot.name := by
  induction hs with
  | nil => rfl
  | cons h hs ih =>
    unfold updateFirst
    split
    · simp [hf]
    · simp [ih]

theorem processLoc_nodup (text : List Char) (loc : LocEntry) (hs : List Hotspot)
    (h : (hs.map Hotspot.name).Nodup) :
    ((processLoc text hs loc).map Hotspot.name).Nodup := by
  unfold processLoc
  split
  · dsimp only
    split
    · rw [updateFirst_names _ _ (mergeHotspot_name _ _)]
      exact h
    · rename_i hany
      rw [List.map_append]
      rw [List.nodup_append]
      refine ⟨h, by simp, ?_⟩
      intro x hx1 hx2
      simp only [List.map_cons, List.map_nil, List.mem_singleton] at hx2
      have : ∀ z ∈ hs, ¬(z.name = loc.name) := by
        intro z hz
        have := List.any_eq_false.1 (Bool.not_eq_true _ ▸ hany) z hz
        simpa using this
      obtain ⟨z, hz, hzn⟩ := List.mem_map.1 hx1
      exact this z hz (by rw [hzn, hx2])
  · exact h

theorem foldl_processLoc_nodup (text : List Char) (locs : List LocEntry)
    (hs : List Hotspot) (h : (hs.map Hotspot.name).Nodup) :
    ((locs.foldl (processLoc text) hs).map Hotspot.name).Nodup := by
  induction locs generalizing hs with
  | nil => exact h
  | cons l ls ih => exact ih _ (processLoc_nodup text l hs h)

theorem foldlM_hotspot_nodup (articles : List RawArticle) (hs0 : List Hotspot)
    (h0 : (hs0.map Hotspot.name).Nodup) (hs : List Hotspot)
    (h : articles.foldlM hotspotArticleStep hs0 = Except.ok hs) :
    (hs.map Hotspot.name).Nodup := by
  induction articles generalizing hs0 with
  | nil =>
    simp only [List.foldlM_nil] at h
    cases h
    exact h0
  | cons a as ih =>
    rw [List.foldlM_cons] at h
    cases hstep : hotspotArticleStep hs0 a with
    | error e => rw [hstep] at h; exact absurd h (by simp [Bind.bind, Except.bind])
    | ok hs1 =>
      rw [hstep] at h
      have hnod1 : (hs1.map Hotspot.name).Nodup := by
        unfold hotspotArticleStep at hstep
        cases ht : a.title? with
        | none => rw [ht] at hstep; exact absurd hstep (by simp)
        | some t =>
          cases hx : a.text? with
          | none => rw [ht, hx] at hstep; exact absurd hstep (by simp)
          | some x =>
            rw [ht, hx] at hstep
            cases hstep
            exact foldl_processLoc_nodup _ _ _ h0
      exact ih hs1 hnod1 (by simpa [Bind.bind, Except.bind] using h)

/-- Claim C7: every hotspot list produced by `extract_geographic_hotspots`
contains at most one hotspot per name, and the three canonical hotspot
names Kashmir, Line of Control and Balochistan are always represented. -/
theorem claim_C7_hotspot_names (articles : List RawArticle) (hs : List Hotspot)
    (h : extract_geographic_hotspots articles = Except.ok hs) :
    (hs.map Hotspot.name).Nodup ∧ "Kashmir" ∈ hs.map Hotspot.name ∧
      "Line of Control" ∈ hs.map Hotspot.name ∧
      "Balochistan" ∈ hs.map Hotspot.name := by
  unfold extract_geographic_hotspots at h
  cases hfold : articles.foldlM hotspotArticleStep [] with
  | error e => rw [hfold] at h; exact absurd h (by simp)
  | ok base =>
    rw [hfold] at h
    have hnod : (base.map Hotspot.name).Nodup :=
      foldlM_hotspot_nodup articles [] (by simp) base hfold
    have hl := Except.ok.inj h
    by_cases hlen : base.length = 0
    · rw [if_pos hlen] at hl
      subst hl
      exact ⟨by decide, by decide, by decide, by decide⟩
    · rw [if_neg hlen] at hl
      subst hl
      have hmemdef : ∀ d ∈ default_hotspots, d.name ∈
          (base ++ default_hotspots.filter
            (fun d => !((base.map Hotspot.name).contains d.name))).map Hotspot.name := by
        intro d hd
        rw [List.map_append, List.mem_append]
        by_cases hin : d.name ∈ base.map Hotspot.name
        · exact Or.inl hin
        · refine Or.inr (List.mem_map.2 ⟨d, List.mem_filter.2 ⟨hd, ?_⟩, rfl⟩)
          simp [List.contains, List.elem_eq_mem, hin]
      refine ⟨?_, ?_, ?_, ?_⟩
      · rw [List.map_append, List.nodup_append]
        refine ⟨hnod, ?_, ?_⟩
        · have hsub : (default_hotspots.filter
              (fun d => !((base.map Hotspot.name).contains d.name))).Sublist
              default_hotspots := List.filter_sublist _
          have : ((default_hotspots.filter
              (fun d => !((base.map Hotspot.name).contains d.name))).map
                Hotspot.name).Sublist (default_hotspots.map Hotspot.name) :=
            hsub.map _
          exact this.nodup (by decide)
        · intro x hx1 hx2
          obtain ⟨d, hd, hdn⟩ := List.mem_map.1 hx2
          have := (List.mem_filter.1 hd).2
          simp only [List.contains, List.elem_eq_mem, Bool.not_eq_true',
            decide_eq_false_iff_not] at this
          exact this (hdn ▸ hx1)
      · exact hmemdef ⟨"Kashmir", ⟨340837, 10000⟩, ⟨747973, 10000⟩,
          "disputed_region", "high", 3,
          "Ongoing tensions in disputed Kashmir region"⟩ (by decide)
      · exact hmemdef ⟨"Line of Control", ⟨340466, 10000⟩, ⟨743982, 10000⟩,
          "border", "medium", 2, "Border incidents along LOC"⟩ (by decide)
      · exact hmemdef ⟨"Balochistan", ⟨281100, 10000⟩, ⟨655400, 10000⟩,
          "province", "low", 1, "Regional security concerns"⟩ (by decide)

/-- Claim C7 witness: the empty article list produces the three default
hotspots, which satisfy the name properties. -/
theorem claim_C7_hotspot_names_witness :
    extract_geographic_hotspots [] = Except.ok default_hotspots ∧
      ((default_hotspots.map Hotspot.name).Nodup ∧
        "Kashmir" ∈ default_hotspots.map Hotspot.name ∧
        "Line of Control" ∈ default_hotspots.map Hotspot.name ∧
        "Balochistan" ∈ default_hotspots.map Hotspot.name) :=
  ⟨rfl, claim_C7_hotspot_names [] default_hotspots rfl⟩

/-- Claim C10: `extract_hotspots` applied to the empty article list returns
exactly the three default hotspots — Kashmir with intensity high, Line of
Control with intensity medium, Balochistan with intensity low. -/
theorem claim_C10_hotspots_empty :
    extract_geographic_hotspots [] = Except.ok default_hotspots ∧
      default_hotspots.map (fun h => (h.name, h.intensity)) =
        [("Kashmir", "high"), ("Line of Control", "medium"),
         ("Balochistan", "low")] ∧
      default_hotspots.length = 3 :=
  ⟨rfl, rfl, rfl⟩

/-! ## Sentence scoring and ranking (src/backend/app.py:234-357) -/

/-- The 18-term keyword list of `score_sentences_keywords` (a local
`important_keywords` in the source, distinct from the boost table). -/
def score_keywords : List String :=
  ["pakistan", "india", "kashmir", "conflict", "ceasefire", "military",
   "government", "border", "attack", "peace", "tension", "diplomatic",
   "china", "afghanistan", "taliban", "nuclear", "missile", "drone"]

/-- The sentence-level `TfidfVectorizer` run of `score_sentences_tfidf` is
an external collaborator, abstracted as an oracle; `none` models the
vectorizer raising, which the source catches with a uniform score of 1.0
per sentence. -/
def SentenceOracle : Type := List (List Char) → Option (List Q)

/-- `score_sentences_tfidf(sentences)`. -/
def score_sentences_tfidf (oracle : SentenceOracle)
    (sentences : List (List Char)) : List Q :=
  if sentences.length < 2 then (if sentences.isEmpty then [] else [⟨1, 1⟩])
  else
    match oracle sentences with
    | some l => l
    | none => List.replicate sentences.length ⟨1, 1⟩

/-- `score_sentences_keywords(sentences)`: keyword hits over list size. -/
def score_sentences_keywords (sentences : List (List Char)) : List Q :=
  sentences.map (fun s =>
    let low := lowerL s
    ⟨(score_keywords.foldl
        (fun n k => if containsSub k.data low then n + 1 else n) 0 : Int), 18⟩)

/-- `score_sentences_position`: 1.0 at the ends, 0.8 in the first or last
30 percent, 0.5 in the middle (`i < total*0.3` and `i > total*0.7`). -/
def score_sentences_position (total i : Nat) : Q :=
  if i = 0 ∨ i = total - 1 then ⟨1, 1⟩
  else if 10 * i < 3 * total then ⟨8, 10⟩
  else if 10 * i > 7 * total then ⟨8, 10⟩
  else ⟨5, 10⟩

/-- `score_sentences_length`: word-count fitness bands. -/
def score_sentences_length (s : List Char) : Q :=
  let n := wordCount s
  if 10 ≤ n ∧ n ≤ 25 then ⟨1, 1⟩
  else if 8 ≤ n ∧ n ≤ 30 then ⟨8, 10⟩
  else if 5 ≤ n ∧ n ≤ 35 then ⟨6, 10⟩
  else ⟨3, 10⟩

/-- Sentence tokenisation of `extract_key_sentences_multimethod`: split on
`[.!?]+`, strip, keep fragments longer than 20 characters. -/
def sentencesOf (full_text : List Char) : List (List Char) :=
  ((splitPunct full_text).filter (fun s => 20 < (pyStrip s).length)).map pyStrip

/-- The `(combined_score, sentence)` pairs, with the fixed weights
0.4/0.3/0.2/0.1 summed in source order. -/
def combinedScores (oracle : SentenceOracle) (sentences : List (List Char)) :
    List (Q × List Char) :=
  let tf := score_sentences_tfidf oracle sentences
  let kw := score_sentences_keywords sentences
  sentences.enum.map (fun p =>
    let score :=
      (((tf.getD p.1 ⟨0, 1⟩).mul ⟨4, 10⟩).add
          ((kw.getD p.1 ⟨0, 1⟩).mul ⟨3, 10⟩)).add
        ((score_sentences_position sentences.length p.1).mul ⟨2, 10⟩)
    (score.add ((score_sentences_length p.2).mul ⟨1, 10⟩), p.2))

/-- Python string comparison (lexicographic on code points). -/
def strLtB : List Char → List Char → Bool
  | [], [] => false
  | [], _ :: _ => true
  | _ :: _, [] => false
  | a :: as, b :: bs => decide (a < b) || (decide (a = b) && strLtB as bs)

/-- Python tuple comparison `(score, sentence) >= (score, sentence)`, the
order used by `heapq.nlargest` on `combined_scores`. -/
def pairGeB (a b : Q × List Char) : Bool :=
  Q.lt b.1 a.1 || (Q.eqv a.1 b.1 && !(strLtB a.2 b.2))

/-- `extract_key_sentences_multimethod(full_text, text_sources,
target_count)`; `heapq.nlargest(n, xs)` is `sorted(xs, reverse=True)[:n]`,
a stable descending sort on the `(score, sentence)` pairs.  The
`text_sources` argument is unused, as in the source. -/
def extract_key_sentences_multimethod (oracle : SentenceOracle)
    (full_text : List Char) (_text_sources : List (List Char))
    (target_count : Nat) : List (List Char) :=
  let sentences := sentencesOf full_text
  if sentences.length < 3 then sentences
  else
    ((sortRev pairGeB (combinedScores oracle sentences)).take target_count).map
      Prod.snd

/-! ## Summary composition (src/backend/app.py:101-232, 341-357) -/

/-- `generate_context_intro(titles)`: five ordered thematic conditions over
the joined lowercased titles, first match wins, generic fallback. -/
def generate_context_intro (titles : List String) : List Char :=
  let t := lowerL (joinSep " ".data (titles.map String.data))
  if containsSub "ceasefire".data t || containsSub "peace".data t then
    "The India-Pakistan conflict shows signs of potential diplomatic breakthrough as peace initiatives gain momentum.".data
  else if containsSub "attack".data t || containsSub "missile".data t ||
      containsSub "drone".data t then
    "Military tensions have escalated in the India-Pakistan conflict, with both nations engaging in strategic operations.".data
  else if containsSub "china".data t &&
      (containsSub "afghanistan".data t || containsSub "taliban".data t) then
    "Regional dynamics involving China and Afghanistan are reshaping India-Pakistan relations in South Asia.".data
  else if containsSub "taliban".data t then
    "The Taliban\x27s growing influence is creating new diplomatic complexities in India-Pakistan relations.".data
  else if containsSub "china".data t then
    "China\x27s involvement continues to influence the strategic balance between India and Pakistan.".data
  else
    "The India-Pakistan conflict continues to evolve with significant regional and international implications.".data

/-- Whether a string ends in terminal punctuation
(`s.endswith(('.', '!', '?'))`). -/
def endsPunctB (s : List Char) : Bool :=
  match s.getLast? with
  | some c => isTermPunct c
  | none => false

def location_prefixes : List String :=
  ["Islamabad, Pakistan –", "Islamabad, Pakistan -",
   "New Delhi, India –", "New Delhi, India -"]

/-- `clean_sentence_for_summary(sentence)`: strip, drop short fragments,
remove location prefixes, normalise dash and double spaces, force terminal
punctuation, capitalise. -/
def clean_sentence_for_summary (sentence : List Char) : List Char :=
  let s0 := pyStrip sentence
  if s0.length < 20 then []
  else
    let s1 := location_prefixes.foldl
      (fun s p => if startsWithL p.data s then pyStrip (s.drop p.data.length) else s) s0
    let s2 := replaceSub " – ".data " - ".data s1
    let s3 := replaceSub "  ".data " ".data s2
    let s4 := if endsPunctB s3 then s3 else s3 ++ ['.']
    match s4 with
    | [] => []
    | c :: cs => c.toUpper :: cs

def no_articles_message : String :=
  "No recent news articles found about the India-Pakistan conflict."

def error_summary_message : String :=
  "Error generating summary. Please try again later."

/-- The sentence-cleaning loop of `generate_free_summary` (lines 167-172):
clean each of the best 4 sentences, keep only the substantial ones
(`clean_sent and len(clean_sent) > 30`). -/
def cleanedOf (key_sentences : List (List Char)) : List (List Char) :=
  (key_sentences.take 4).foldl (fun acc s =>
    let c := clean_sentence_for_summary s
    if !c.isEmpty && 30 < c.length then acc ++ [c] else acc) []

/-- The flowing-summary assembly of `generate_free_summary`
(lines 175-197): connective clauses over the cleaned sentences when at
least two survive, the limited-content fallback otherwise. -/
def composeSummary (context_intro : List Char) (cleaned : List (List Char)) :
    List Char :=
  if 2 ≤ cleaned.length then
    let parts0 := [context_intro,
      "Recent developments indicate that ".data ++ lowerL (cleaned.getD 0 []),
      "Additionally, ".data ++ lowerL (cleaned.getD 1 [])]
    let parts1 := if 3 ≤ cleaned.length then
      parts0 ++ ["Meanwhile, ".data ++ lowerL (cleaned.getD 2 [])]
      else parts0
    let parts2 := if 4 ≤ cleaned.length then
      parts1 ++ ["The ongoing situation has resulted in ".data ++
        lowerL (cleaned.getD 3 [])]
      else parts1
    joinSep " ".data parts2
  else context_intro ++ ' ' :: joinSep " ".data cleaned

/-- The per-article extraction loop of `generate_free_summary`: titles via
`article['title']` (raises on a missing key), texts cleaned of newlines,
stripped, and kept only when nonempty. -/
def summaryTitlesTexts (articles : List RawArticle) :
    Except Unit (List String × List (List Char)) :=
  articles.foldlM (fun (p : List String × List (List Char)) a =>
    match a.title?, a.text? with
    | some t, some x =>
      let tx := pyStrip (x.data.map (fun c => if c = '\n' then ' ' else c))
      Except.ok (p.1 ++ [t], if tx.isEmpty then p.2 else p.2 ++ [tx])
    | _, _ => Except.error ()) ([], [])

/-- `generate_free_summary(articles)` (with `target_sentences = 6` as in
the call sites). -/
def generate_free_summary (oracle : SentenceOracle)
    (articles : List RawArticle) : Except Unit (List Char) :=
  if articles.isEmpty then Except.ok "No articles available for analysis.".data
  else
    match summaryTitlesTexts articles with
    | Except.error e => Except.error e
    | Except.ok (titles, all_text) =>
      Except.ok (
        if all_text.isEmpty then "No readable content found in articles.".data
        else
          let full_text := joinSep " ".data all_text
          let key_sentences := extract_key_sentences_multimethod oracle
            full_text (all_text ++ titles.map String.data) 6
          let context_intro := generate_context_intro titles
          if key_sentences.isEmpty then
            context_intro ++
              " Recent developments are still emerging, with ongoing diplomatic and security concerns in the region.".data
          else
            composeSummary context_intro (cleanedOf key_sentences))

/-- Line 107 of `generate_summary`:
`combined_text = "\n\n".join([f"Title: \x7ba['title']\x7d\nα..." ...])` uses
direct key access before the `try:` block, so it raises on a malformed
record. -/
def summaryCombinedText (articles : List RawArticle) :
    Except Unit (List Char) :=
  match articles.mapM (fun a =>
    match a.title?, a.text? with
    | some t, some x => Except.ok ("Title: ".data ++ t.data ++ '\n' :: x.data)
    | _, _ => Except.error ()) with
  | Except.error e => Except.error e
  | Except.ok pieces => Except.ok (joinSep "\n\n".data pieces)

/-- `generate_summary(articles)`: the empty check, then the eager
`combined_text` join (which can raise), then the free summary inside
`try:` (the optional external-service summariser is unavailable in the
modelled configuration and its failure is swallowed by the source). -/
def generate_summary (oracle : SentenceOracle) (articles : List RawArticle) :
    Except Unit (List Char) :=
  if articles.isEmpty then Except.ok no_articles_message.data
  else
    match summaryCombinedText articles with
    | Except.error e => Except.error e
    | Except.ok _ =>
      match generate_free_summary oracle articles with
      | Except.ok s => Except.ok s
      | Except.error _ => Except.ok error_summary_message.data

/-! ## Order facts for the `(score, sentence)` tuple comparison -/

theorem Q.lt_trans {a b c : Q} (h1 : Q.lt a b = true) (h2 : Q.lt b c = true) :
    Q.lt a c = true := by
  unfold Q.lt at h1 h2 ⊢
  have hb := Q.qden_pos b
  have ha := Q.qden_pos a
  have hc := Q.qden_pos c
  have h1' : a.qnum * b.qden < b.qnum * a.qden := by simpa using h1
  have h2' : b.qnum * c.qden < c.qnum * b.qden := by simpa using h2
  have goal : a.qnum * c.qden < c.qnum * a.qden := by nlinarith
  simpa using goal

theorem Q.eqv_of_not_lt {a b : Q} (h1 : ¬ Q.lt a b = true)
    (h2 : ¬ Q.lt b a = true) : Q.eqv a b = true := by
  unfold Q.lt at h1 h2
  unfold Q.eqv
  simp only [decide_eq_true_eq] at h1 h2 ⊢
  omega

theorem Q.eqv_symm {a b : Q} (h : Q.eqv a b = true) : Q.eqv b a = true := by
  unfold Q.eqv at h ⊢
  simp only [decide_eq_true_eq] at h ⊢
  omega

theorem Q.eqv_trans {a b c : Q} (h1 : Q.eqv a b = true) (h2 : Q.eqv b c = true) :
    Q.eqv a c = true := by
  unfold Q.eqv at h1 h2 ⊢
  have hb := Q.qden_pos b
  have h1' : a.qnum * b.qden = b.qnum * a.qden := by simpa using h1
  have h2' : b.qnum * c.qden = c.qnum * b.qden := by simpa using h2
  have key : a.qnum * c.qden * b.qden = c.qnum * a.qden * b.qden := by
    linear_combination c.qden * h1' + a.qden * h2'
  have goal : a.qnum * c.qden = c.qnum * a.qden :=
    mul_right_cancel₀ (by omega) key
  simpa using goal

theorem Q.lt_of_lt_of_eqv {a b c : Q} (h1 : Q.lt a b = true)
    (h2 : Q.eqv b c = true) : Q.lt a c = true := by
  unfold Q.lt at h1 ⊢
  unfold Q.eqv at h2
  have hb := Q.qden_pos b
  have ha := Q.qden_pos a
  have hc := Q.qden_pos c
  have h1' : a.qnum * b.qden < b.qnum * a.qden := by simpa using h1
  have h2' : b.qnum * c.qden = c.qnum * b.qden := by simpa using h2
  have goal : a.qnum * c.qden < c.qnum * a.qden := by nlinarith
  simpa using goal

theorem Q.lt_of_eqv_of_lt {a b c : Q} (h1 : Q.eqv a b = true)
    (h2 : Q.lt b c = true) : Q.lt a c = true := by
  unfold Q.eqv at h1
  unfold Q.lt at h2 ⊢
  have hb := Q.qden_pos b
  have ha := Q.qden_pos a
  have hc := Q.qden_pos c
  have h1' : a.qnum * b.qden = b.qnum * a.qden := by simpa using h1
  have h2' : b.qnum * c.qden < c.qnum * b.qden := by simpa using h2
  have goal : a.qnum * c.qden < c.qnum * a.qden := by nlinarith
  simpa using goal

theorem strLtB_irrefl (a : List Char) : strLtB a a = false := by
  induction a with
  | nil => rfl
  | cons c cs ih => simp [strLtB, ih]

theorem strLtB_trans {a b c : List Char} (h1 : strLtB a b = true)
    (h2 : strLtB b c = true) : strLtB a c = true := by
  induction a generalizing b c with
  | nil =>
    cases b with
    | nil => exact absurd h1 (by simp [strLtB])
    | cons y ys =>
      cases c with
      | nil => exact absurd h2 (by simp [strLtB])
      | cons z zs => simp [strLtB]
  | cons x xs ih =>
    cases b with
    | nil => exact absurd h1 (by simp [strLtB])
    | cons y ys =>
      cases c with
      | nil => exact absurd h2 (by simp [strLtB])
      | cons z zs =>
        simp only [strLtB, Bool.or_eq_true, Bool.and_eq_true,
          decide_eq_true_eq] at h1 h2 ⊢
        rcases h1 with h1 | ⟨rfl, h1⟩
        · rcases h2 with h2 | ⟨rfl, h2⟩
          · exact Or.inl (lt_trans h1 h2)
          · exact Or.inl h1
        · rcases h2 with h2 | ⟨rfl, h2⟩
          · exact Or.inl h2
          · exact Or.inr ⟨rfl, ih h1 h2⟩

theorem strLtB_connex {a b : List Char} (h1 : strLtB a b = false)
    (h2 : strLtB b a = false) : a = b := by
  induction a generalizing b with
  | nil =>
    cases b with
    | nil => rfl
    | cons y ys => exact absurd h1 (by simp [strLtB])
  | cons x xs ih =>
    cases b with
    | nil => exact absurd h2 (by simp [strLtB])
    | cons y ys =>
      simp only [strLtB, Bool.or_eq_false_iff, Bool.and_eq_false_iff,
        decide_eq_false_iff_not] at h1 h2
      obtain ⟨hxy, h1'⟩ := h1
      obtain ⟨hyx, h2'⟩ := h2
      have heq : x = y := le_antisymm (le_of_not_lt hyx) (le_of_not_lt hxy)
      subst heq
      have hxs : strLtB xs ys = false := by
        rcases h1' with h | h
        · exact absurd rfl h
        · exact h
      have hys : strLtB ys xs = false := by
        rcases h2' with h | h
        · exact absurd rfl h
        · exact h
      rw [ih hxs hys]

theorem pairGeB_total (a b : Q × List Char) :
    pairGeB a b = true ∨ pairGeB b a = true := by
  unfold pairGeB
  by_cases hba : Q.lt b.1 a.1 = true
  · exact Or.inl (by simp [hba])
  · by_cases hab : Q.lt a.1 b.1 = true
    · exact Or.inr (by simp [hab])
    · have heqv : Q.eqv a.1 b.1 = true := Q.eqv_of_not_lt hab hba
      by_cases hs : strLtB a.2 b.2 = true
      · refine Or.inr ?_
        have hns : strLtB b.2 a.2 = false := by
          rcases Bool.eq_false_or_eq_true (strLtB b.2 a.2) with h | h
          · exact absurd (strLtB_trans h hs) (by simp [strLtB_irrefl])
          · exact h
        simp [Q.eqv_symm heqv, hns]
      · exact Or.inl (by simp [heqv, hs])

theorem pairGeB_trans (a b c : Q × List Char) (h1 : pairGeB a b = true)
    (h2 : pairGeB b c = true) : pairGeB a c = true := by
  unfold pairGeB at h1 h2 ⊢
  simp only [Bool.or_eq_true, Bool.and_eq_true, Bool.not_eq_true'] at h1 h2 ⊢
  rcases h1 with h1 | ⟨he1, hs1⟩
  · rcases h2 with h2 | ⟨he2, hs2⟩
    · exact Or.inl (Q.lt_trans h2 h1)
    · exact Or.inl (Q.lt_of_eqv_of_lt (Q.eqv_symm he2) h1)
  · rcases h2 with h2 | ⟨he2, hs2⟩
    · exact Or.inl (Q.lt_of_lt_of_eqv h2 (Q.eqv_symm he1))
    · refine Or.inr ⟨Q.eqv_trans he1 he2, ?_⟩
      rcases Bool.eq_false_or_eq_true (strLtB a.2 c.2) with hac | hac
      · rcases Bool.eq_false_or_eq_true (strLtB b.2 a.2) with hba | hba
        · have hbc := strLtB_trans hba hac
          rw [hbc] at hs2
          exact absurd hs2 (by simp)
        · have hab : a.2 = b.2 := strLtB_connex hs1 hba
          rw [hab] at hac
          rw [hac] at hs2
          exact absurd hs2 (by simp)
      · exact hac

/-- Claim C6: with at least 3 sentences, the selection of
`extract_key_sentences_multimethod` is the first `target_count` sentences
of a descending sort of the `(combined score, sentence text)` pairs under
the natural tuple order: the selected pairs dominate every unselected
pair, so two sentences with equal combined score are tie-broken by their
text, the lexicographically larger one being selected first. -/
theorem claim_C6_selection (oracle : SentenceOracle) (full_text : List Char)
    (ts : List (List Char)) (n : Nat)
    (h : 3 ≤ (sentencesOf full_text).length) :
    ∃ l : List (Q × List Char),
      l.Perm (combinedScores oracle (sentencesOf full_text)) ∧
        l.Pairwise (fun a b => pairGeB a b = true) ∧
        extract_key_sentences_multimethod oracle full_text ts n =
          (l.take n).map Prod.snd ∧
        ∀ p ∈ l.take n, ∀ q ∈ l.drop n, pairGeB p q = true := by
  refine ⟨sortRev pairGeB (combinedScores oracle (sentencesOf full_text)),
    sortRev_perm _ _, sortRev_pairwise pairGeB_trans pairGeB_total _, ?_, ?_⟩
  · unfold extract_key_sentences_multimethod
    rw [if_neg (by omega)]
  · have hp := sortRev_pairwise pairGeB_trans pairGeB_total
      (combinedScores oracle (sentencesOf full_text))
    rw [← List.take_append_drop n
      (sortRev pairGeB (combinedScores oracle (sentencesOf full_text)))] at hp
    exact (List.pairwise_append.1 hp).2.2

/-- A concrete sentence-scoring oracle: the vectorizer raised, giving the
uniform fallback scores. -/
def noSentTfidf : SentenceOracle := fun _ => none

/-- Claim C6 witness: a three-sentence text satisfies the hypothesis. -/
theorem claim_C6_selection_witness :
    3 ≤ (sentencesOf
        "India reported new talks today. Pakistan responded to the statement. Observers watched the developing border events.".data).length ∧
      ∃ l : List (Q × List Char),
        l.Perm (combinedScores noSentTfidf (sentencesOf
          "India reported new talks today. Pakistan responded to the statement. Observers watched the developing border events.".data)) ∧
          l.Pairwise (fun a b => pairGeB a b = true) ∧
          extract_key_sentences_multimethod noSentTfidf
            "India reported new talks today. Pakistan responded to the statement. Observers watched the developing border events.".data
            [] 6 = (l.take 6).map Prod.snd ∧
          ∀ p ∈ l.take 6, ∀ q ∈ l.drop 6, pairGeB p q = true :=
  ⟨by decide, claim_C6_selection noSentTfidf _ [] 6 (by decide)⟩

/-! ## Terminal punctuation facts for the summary composer -/

theorem endsPunctB_append (pre x : List Char) (hx : x ≠ []) :
    endsPunctB (pre ++ x) = endsPunctB x := by
  cases hlast : x.getLast? with
  | none => exact absurd (List.getLast?_eq_none_iff.1 hlast) hx
  | some c =>
    simp only [endsPunctB, List.getLast?_append, hlast, Option.or_some]

theorem isTermPunct_cases {c : Char} (h : isTermPunct c = true) :
    c = '.' ∨ c = '!' ∨ c = '?' := by
  unfold isTermPunct at h
  simp only [Bool.or_eq_true, decide_eq_true_eq] at h
  tauto

theorem toUpper_punct {c : Char} (h : isTermPunct c = true) :
    c.toUpper = c := by
  rcases isTermPunct_cases h with rfl | rfl | rfl <;> decide

theorem toLower_punct {c : Char} (h : isTermPunct c = true) :
    isTermPunct c.toLower = true := by
  rcases isTermPunct_cases h with rfl | rfl | rfl <;> decide

theorem endsPunctB_lowerL {s : List Char} (h : endsPunctB s = true) :
    endsPunctB (lowerL s) = true := by
  cases hlast : s.getLast? with
  | none => simp [endsPunctB, hlast] at h
  | some c =>
    simp only [endsPunctB, hlast] at h
    simp only [endsPunctB, lowerL, List.getLast?_map, hlast, Option.map_some']
    exact toLower_punct h

theorem lowerL_ne_nil {s : List Char} (h : s ≠ []) : lowerL s ≠ [] := by
  unfold lowerL
  simpa using h

/-- Every nonempty output of `clean_sentence_for_summary` ends in terminal
punctuation (the source forces a final `.` and only changes the first
character afterwards). -/
theorem clean_ends (s : List Char) :
    clean_sentence_for_summary s = [] ∨
      endsPunctB (clean_sentence_for_summary s) = true := by
  unfold clean_sentence_for_summary
  by_cases h20 : (pyStrip s).length < 20
  · rw [if_pos h20]; exact Or.inl rfl
  · rw [if_neg h20]
    dsimp only
    generalize replaceSub "  ".data " ".data (replaceSub " – ".data " - ".data
      (location_prefixes.foldl (fun s p =>
        if startsWithL p.data s then pyStrip (s.drop p.data.length) else s)
        (pyStrip s))) = s3
    by_cases hp : endsPunctB s3 = true
    · rw [if_pos hp]
      cases s3 with
      | nil => exact absurd hp (by decide)
      | cons c cs =>
        right
        cases cs with
        | nil =>
          have hc : isTermPunct c = true := by simpa [endsPunctB] using hp
          simpa [endsPunctB, toUpper_punct hc] using hc
        | cons d ds =>
          have h1 : endsPunctB (c.toUpper :: d :: ds) = endsPunctB (d :: ds) := by
            simpa using endsPunctB_append [c.toUpper] (d :: ds) (by simp)
          have h2 : endsPunctB (c :: d :: ds) = endsPunctB (d :: ds) := by
            simpa using endsPunctB_append [c] (d :: ds) (by simp)
          show endsPunctB (c.toUpper :: d :: ds) = true
          rw [h1, ← h2]
          exact hp
    · rw [if_neg hp]
      right
      cases s3 with
      | nil => decide
      | cons c cs =>
        show endsPunctB (c.toUpper :: (cs ++ ['.'])) = true
        have h1 : endsPunctB (c.toUpper :: (cs ++ ['.'])) =
            endsPunctB (cs ++ ['.']) := by
          simpa using endsPunctB_append [c.toUpper] (cs ++ ['.']) (by simp)
        rw [h1, endsPunctB_append cs ['.'] (by simp)]
        decide

/-- Every sentence kept by the cleaning loop is over 30 characters long
and ends in terminal punctuation. -/
theorem cleanedOf_prop (ks : List (List Char)) :
    ∀ c ∈ cleanedOf ks, 30 < c.length ∧ endsPunctB c = true := by
  unfold cleanedOf
  generalize ks.take 4 = l
  suffices h : ∀ (l acc : List (List Char)),
      (∀ c ∈ acc, 30 < c.length ∧ endsPunctB c = true) →
      ∀ c ∈ l.foldl (fun acc s =>
        let c := clean_sentence_for_summary s
        if !c.isEmpty && 30 < c.length then acc ++ [c] else acc) acc,
        30 < c.length ∧ endsPunctB c = true by
    exact h l [] (by simp)
  intro l
  induction l with
  | nil => intro acc hacc; simpa using hacc
  | cons s ls ih =>
    intro acc hacc
    simp only [List.foldl_cons]
    apply ih
    intro c hc
    split at hc
    · rename_i hguard
      simp only [Bool.and_eq_true, Bool.not_eq_true', decide_eq_true_eq] at hguard
      rcases List.mem_append.1 hc with hc | hc
      · exact hacc c hc
      · have hceq : c = clean_sentence_for_summary s := by simpa using hc
        subst hceq
        refine ⟨hguard.2, ?_⟩
        rcases clean_ends s with hnil | hend
        · exfalso
          rw [hnil] at hguard
          simp at hguard
        · exact hend
    · exact hacc c hc

theorem joinSep_append_one (sep : List Char) (l : List (List Char))
    (x : List Char) : ∃ pre, joinSep sep (l ++ [x]) = pre ++ x := by
  induction l with
  | nil => exact ⟨[], by simp [joinSep]⟩
  | cons a l2 ih =>
    obtain ⟨pre2, hpre⟩ := ih
    cases hl : l2 ++ [x] with
    | nil => exact absurd hl (by simp)
    | cons y ys =>
      refine ⟨a ++ sep ++ pre2, ?_⟩
      simp only [List.cons_append, hl, joinSep]
      rw [← hl, hpre]
      simp [List.append_assoc]

/-- A joined part list whose final element is a connective literal followed
by a punctuated sentence is nonempty and ends in punctuation. -/
theorem joinSep_last_shape (parts : List (List Char)) (lit x : List Char)
    (hx : x ≠ []) (hex : endsPunctB x = true) :
    joinSep " ".data (parts ++ [lit ++ x]) ≠ [] ∧
      endsPunctB (joinSep " ".data (parts ++ [lit ++ x])) = true := by
  obtain ⟨pre, hpre⟩ := joinSep_append_one " ".data parts (lit ++ x)
  rw [hpre]
  have hlx : lit ++ x ≠ [] := List.append_ne_nil_of_right_ne_nil lit hx
  refine ⟨List.append_ne_nil_of_right_ne_nil pre hlx, ?_⟩
  rw [endsPunctB_append pre _ hlx, endsPunctB_append lit x hx]
  exact hex

/-- The assembled summary is nonempty, and it ends in terminal punctuation
except in the degenerate zero-cleaned-sentence case, where it is the
contextual intro plus a single trailing space. -/
theorem composeSummary_shape (context_intro : List Char)
    (cleaned : List (List Char))
    (hprop : ∀ c ∈ cleaned, 30 < c.length ∧ endsPunctB c = true) :
    composeSummary context_intro cleaned ≠ [] ∧
      (endsPunctB (composeSummary context_intro cleaned) = true ∨
        composeSummary context_intro cleaned = context_intro ++ [' ']) := by
  unfold composeSummary
  by_cases h2 : 2 ≤ cleaned.length
  · rw [if_pos h2]
    dsimp only
    have hmem : ∀ i, i < cleaned.length → (lowerL (cleaned.getD i []) ≠ [] ∧
        endsPunctB (lowerL (cleaned.getD i [])) = true) := by
      intro i hi
      have hc : cleaned.getD i [] ∈ cleaned := by
        rw [List.getD_eq_getElem cleaned [] hi]
        exact List.getElem_mem hi
      obtain ⟨hlen, hend⟩ := hprop _ hc
      refine ⟨lowerL_ne_nil ?_, endsPunctB_lowerL hend⟩
      intro hnil
      rw [hnil] at hlen
      simp at hlen
    by_cases h4 : 4 ≤ cleaned.length
    · rw [if_pos h4, if_pos (by omega : 3 ≤ cleaned.length)]
      obtain ⟨hne, hend⟩ := hmem 3 (by omega)
      have := joinSep_last_shape
        ([context_intro,
          "Recent developments indicate that ".data ++ lowerL (cleaned.getD 0 []),
          "Additionally, ".data ++ lowerL (cleaned.getD 1 [])] ++
          ["Meanwhile, ".data ++ lowerL (cleaned.getD 2 [])])
        "The ongoing situation has resulted in ".data
        (lowerL (cleaned.getD 3 [])) hne hend
      exact ⟨this.1, Or.inl this.2⟩
    · rw [if_neg h4]
      by_cases h3 : 3 ≤ cleaned.length
      · rw [if_pos h3]
        obtain ⟨hne, hend⟩ := hmem 2 (by omega)
        have := joinSep_last_shape
          [context_intro,
           "Recent developments indicate that ".data ++ lowerL (cleaned.getD 0 []),
           "Additionally, ".data ++ lowerL (cleaned.getD 1 [])]
          "Meanwhile, ".data (lowerL (cleaned.getD 2 [])) hne hend
        exact ⟨this.1, Or.inl this.2⟩
      · rw [if_neg h3]
        obtain ⟨hne, hend⟩ := hmem 1 (by omega)
        have := joinSep_last_shape
          [context_intro,
           "Recent developments indicate that ".data ++ lowerL (cleaned.getD 0 [])]
          "Additionally, ".data (lowerL (cleaned.getD 1 [])) hne hend
        exact ⟨this.1, Or.inl this.2⟩
  · rw [if_neg h2]
    cases hcl : cleaned with
    | nil => exact ⟨by simp, Or.inr rfl⟩
    | cons c cs =>
      cases cs with
      | nil =>
        obtain ⟨hlen, hend⟩ := hprop c (by rw [hcl]; exact List.mem_cons_self c [])
        have hcne : c ≠ [] := by
          intro hnil; rw [hnil] at hlen; simp at hlen
        refine ⟨by simp, Or.inl ?_⟩
        show endsPunctB (context_intro ++ ' ' :: joinSep " ".data [c]) = true
        have hjs : joinSep " ".data [c] = c := rfl
        rw [hjs]
        have hsc : (' ' :: c) ≠ [] := by simp
        rw [endsPunctB_append context_intro _ hsc]
        have : endsPunctB (' ' :: c) = endsPunctB c := by
          simpa using endsPunctB_append [' '] c hcne
        rw [this]
        exact hend
      | cons d ds =>
        rw [hcl] at h2
        simp at h2

/-- Shape of every successful `generate_free_summary` result: nonempty,
and ending in terminal punctuation except in the degenerate case. -/
theorem gfs_shape (oracle : SentenceOracle) (articles : List RawArticle)
    (s : List Char) (h : generate_free_summary oracle articles = Except.ok s) :
    s ≠ [] ∧ (endsPunctB s = true ∨
      ∃ ts, s = generate_context_intro ts ++ [' ']) := by
  unfold generate_free_summary at h
  by_cases hemp : articles.isEmpty = true
  · rw [if_pos hemp] at h
    have hs := Except.ok.inj h
    subst hs
    exact ⟨by decide, Or.inl (by decide)⟩
  · rw [if_neg hemp] at h
    cases hst : summaryTitlesTexts articles with
    | error e => rw [hst] at h; exact absurd h (by simp)
    | ok p =>
      rw [hst] at h
      obtain ⟨titles, all_text⟩ := p
      have hs := Except.ok.inj h
      subst hs
      by_cases hat : all_text.isEmpty = true
      · rw [if_pos hat]
        exact ⟨by decide, Or.inl (by decide)⟩
      · rw [if_neg hat]
        dsimp only
        by_cases hks : (extract_key_sentences_multimethod oracle
            (joinSep " ".data all_text)
            (all_text ++ titles.map String.data) 6).isEmpty = true
        · rw [if_pos hks]
          refine ⟨List.append_ne_nil_of_right_ne_nil _ (by decide), Or.inl ?_⟩
          rw [endsPunctB_append _ _ (by decide)]
          decide
        · rw [if_neg hks]
          have hshape := composeSummary_shape (generate_context_intro titles)
            (cleanedOf (extract_key_sentences_multimethod oracle
              (joinSep " ".data all_text)
              (all_text ++ titles.map String.data) 6))
            (cleanedOf_prop _)
          exact ⟨hshape.1, hshape.2.elim Or.inl (fun he => Or.inr ⟨titles, he⟩)⟩

/-- Claim C5 amended: `rank_and_summarize([])` returns the literal
no-articles message, and every successful result on a non-empty article
list is a non-empty string that ends in terminal punctuation, except in
the degenerate case where key sentences were extracted but none survives
cleaning, in which case the result is the contextual intro followed by a
single trailing space. -/
theorem claim_C5_amended (oracle : SentenceOracle) :
    generate_summary oracle [] = Except.ok no_articles_message.data ∧
      ∀ (articles : List RawArticle) (s : List Char), articles ≠ [] →
        generate_summary oracle articles = Except.ok s →
        s ≠ [] ∧ (endsPunctB s = true ∨
          ∃ ts, s = generate_context_intro ts ++ [' ']) := by
  refine ⟨rfl, ?_⟩
  intro articles s hne h
  unfold generate_summary at h
  rw [if_neg (by simpa using hne)] at h
  cases hct : summaryCombinedText articles with
  | error e => rw [hct] at h; exact absurd h (by simp)
  | ok t =>
    rw [hct] at h
    dsimp only at h
    cases hg : generate_free_summary oracle articles with
    | ok s2 =>
      rw [hg] at h
      have hs := Except.ok.inj h
      subst hs
      exact gfs_shape oracle articles s2 hg
    | error e =>
      rw [hg] at h
      have hs := Except.ok.inj h
      subst hs
      exact ⟨by decide, Or.inl (by decide)⟩

set_option maxRecDepth 8192 in
/-- Claim C5 counterexample: an article whose three 25-character sentences
all survive tokenisation but none survives the over-30-characters cleaning
filter makes `generate_summary` return the contextual intro followed by a
trailing space — a non-empty string that does not end in terminal
punctuation. -/
theorem claim_C5_counterexample :
    generate_summary noSentTfidf
        [⟨some "T",
          some "abcdefghijklmnopqrstuvwxy. abcdefghijklmnopqrstuvwxy. abcdefghijklmnopqrstuvwxy."⟩] =
      Except.ok (generate_context_intro ["T"] ++ [' ']) ∧
      endsPunctB (generate_context_intro ["T"] ++ [' ']) = false ∧
      generate_context_intro ["T"] ++ [' '] ≠ [] :=
  ⟨rfl, by decide, by decide⟩

set_option maxRecDepth 8192 in
/-- Claim C5 amended witness: a well-formed article list on the main
composition path satisfies the amended property. -/
theorem claim_C5_amended_witness :
    ([(⟨some "Peace talks",
        some "Something happened in the region today with many details involved here. More text follows in this sentence with several words added on."⟩ :
        RawArticle)] ≠ []) ∧
      ((("The India-Pakistan conflict shows signs of potential diplomatic breakthrough as peace initiatives gain momentum. Recent developments indicate that something happened in the region today with many details involved here. Additionally, more text follows in this sentence with several words added on.").data ≠
          ([] : List Char)) ∧
        (endsPunctB ("The India-Pakistan conflict shows signs of potential diplomatic breakthrough as peace initiatives gain momentum. Recent developments indicate that something happened in the region today with many details involved here. Additionally, more text follows in this sentence with several words added on.").data = true ∨
          ∃ ts, ("The India-Pakistan conflict shows signs of potential diplomatic breakthrough as peace initiatives gain momentum. Recent developments indicate that something happened in the region today with many details involved here. Additionally, more text follows in this sentence with several words added on.").data =
            generate_context_intro ts ++ [' '])) :=
  ⟨by simp,
    (claim_C5_amended noSentTfidf).2
      [⟨some "Peace talks",
        some "Something happened in the region today with many details involved here. More text follows in this sentence with several words added on."⟩]
      _ (by simp) rfl⟩

/-- Claim C2 counterexample: the claim says none of the pipeline functions
ever raises on malformed records, but on an article record missing the
`text` field, `extract_trending_keywords` (direct `article['text']`
access, line 833, outside its `try:`), `extract_geographic_hotspots`
(line 978, no handler) and `generate_summary` (line 107, before its
`try:`) all raise a `KeyError`, modelled as `Except.error ()`. -/
theorem claim_C2_counterexample :
    extract_trending_keywords noTfidf [⟨some "x", none⟩] 20 = Except.error () ∧
      extract_geographic_hotspots [⟨some "x", none⟩] = Except.error () ∧
      generate_summary noSentTfidf [⟨some "x", none⟩] = Except.error () :=
  ⟨rfl, rfl, rfl⟩

/-- Claim C2 amended: on the empty article list all four pipeline
functions return their documented fallbacks without raising, and
`extract_statistics` is total even on malformed records (missing fields
default to the empty string); but `rank_and_summarize`,
`extract_keywords` and `extract_hotspots` raise a key-lookup error when a
record lacks the `title` or `text` field. -/
theorem claim_C2_amended (okw : TfidfOracle) (osum : SentenceOracle) :
    generate_summary osum [] = Except.ok no_articles_message.data ∧
      extract_trending_keywords okw [] 20 = Except.ok fallback_keywords ∧
      extract_geographic_hotspots [] = Except.ok default_hotspots ∧
      ((extract_conflict_statistics []).total_casualties = 0 ∧
        (extract_conflict_statistics []).deaths = 0 ∧
        (extract_conflict_statistics []).injuries = 0 ∧
        (extract_conflict_statistics []).key_developments = 0 ∧
        (extract_conflict_statistics []).diplomatic_activity_level = "Low" ∧
        (extract_conflict_statistics []).conflict_intensity = "Low") ∧
      ((extract_conflict_statistics [⟨some "x", none⟩]).key_developments = 1 ∧
        (extract_conflict_statistics [⟨some "x", none⟩]).deaths = 0) ∧
      extract_trending_keywords okw [⟨some "x", none⟩] 20 = Except.error () ∧
      extract_geographic_hotspots [⟨some "x", none⟩] = Except.error () ∧
      generate_summary osum [⟨some "x", none⟩] = Except.error () :=
  ⟨rfl, rfl, rfl, ⟨rfl, rfl, rfl, rfl, rfl, rfl⟩, ⟨by decide, by decide⟩,
    rfl, rfl, rfl⟩

end IndiaPakNews
